import Mathlib

/-!
Verification of the MIDI sequence generation engine
(`backend/generators/midi_generator.py`).

The engine is embedded shallowly:
* Python floats are modelled as exact rationals (`ℚ`);
* Python ints as `ℤ`, list indices and counters as `ℕ`;
* the global random source is modelled as a stream `g : ℕ → ℚ` of raw
  draws (each raw draw stands for one call of `random.random()`, i.e. a
  value in `[0,1)`), consumed left to right exactly in the order the
  Python code asks for randomness;
* runtime exceptions (`KeyError` from a missing dict key, `IndexError`
  from `random.choice` on an empty sequence, `TypeError` from an
  unexpected keyword argument of the dataclass constructor) are
  modelled with `Except`;
* the unbounded `while` loop of `generate` is modelled with explicit
  fuel; `GenError.fuelOut` is a modelling artefact that is proved
  unreachable for valid configurations (see the termination theorems).
-/

namespace MusicPP

/-- A JSON-like value as stored in the configuration dict.
`GenError.illTypedValue` marks the (claim-irrelevant) boundary of the
typed embedding: Python, being dynamically typed, would store a value of
an unexpected runtime type unchanged in the dataclass field. -/
inductive Value where
  | str (s : String)
  | int (z : ℤ)
  | rat (q : ℚ)
  | bool (b : Bool)
  | intList (l : List ℤ)
  deriving DecidableEq

/-- Error kinds observable from the embedded code. -/
inductive GenError where
  | keyError
  | indexError
  | typeError
  | illTypedValue
  | fuelOut
  deriving DecidableEq

/-- Python `d[k]` / `d.get(k)` on an association list (dicts keep
insertion order, keys are unique in all the constant tables). -/
def dictLookup {α : Type} (d : List (String × α)) (k : String) : Option α :=
  (d.find? (fun kv => kv.1 == k)).map Prod.snd

/-- Python `d.get(k, dflt)`. -/
def dictGetD {α : Type} (d : List (String × α)) (k : String) (dflt : α) : α :=
  (dictLookup d k).getD dflt

/-- The `SCALE_INTERVALS` constant table. -/
def SCALE_INTERVALS : List (String × List ℤ) :=
  [("major", [0, 2, 4, 5, 7, 9, 11]),
   ("minor", [0, 2, 3, 5, 7, 8, 10]),
   ("pentatonic_major", [0, 2, 4, 7, 9]),
   ("pentatonic_minor", [0, 3, 5, 7, 10]),
   ("blues", [0, 3, 5, 6, 7, 10]),
   ("dorian", [0, 2, 3, 5, 7, 9, 10]),
   ("mixolydian", [0, 2, 4, 5, 7, 9, 10])]

/-- The `KEY_OFFSETS` constant table (17 key names). -/
def KEY_OFFSETS : List (String × ℤ) :=
  [("C", 0), ("C#", 1), ("Db", 1),
   ("D", 2), ("D#", 3), ("Eb", 3),
   ("E", 4), ("F", 5), ("F#", 6),
   ("Gb", 6), ("G", 7), ("G#", 8),
   ("Ab", 8), ("A", 9), ("A#", 10),
   ("Bb", 10), ("B", 11)]

/-- The `RHYTHM_PATTERNS` constant table; `"mixed"` maps to Python `None`. -/
def RHYTHM_PATTERNS : List (String × Option (List ℚ)) :=
  [("straight", some [1, 1, 1, 1]),
   ("dotted", some [3/2, 1/2, 3/2, 1/2]),
   ("syncopated", some [1/2, 1, 3/2, 1/2, 1/2]),
   ("triplet", some [667/1000, 667/1000, 667/1000]),
   ("waltz", some [3/2, 3/4, 3/4]),
   ("swing", some [3/4, 1/4, 3/4, 1/4]),
   ("mixed", none)]

/-- The `NOTE_DURATIONS` constant table (beat lengths). -/
def NOTE_DURATIONS : List (String × ℚ) :=
  [("whole", 4), ("half", 2), ("quarter", 1), ("eighth", 1/2),
   ("sixteenth", 1/4), ("dotted_quarter", 3/2), ("dotted_eighth", 3/4)]

/-- The `"medium"` duration profile (shared with the `.get` fallback). -/
def mediumProfile : List (String × ℚ) :=
  [("quarter", 2/5), ("half", 3/20), ("eighth", 1/4),
   ("dotted_quarter", 1/10), ("sixteenth", 1/10)]

/-- The `DURATION_PROFILES` constant table. -/
def DURATION_PROFILES : List (String × List (String × ℚ)) :=
  [("low", [("quarter", 7/10), ("half", 1/5), ("eighth", 1/10)]),
   ("medium", mediumProfile),
   ("high", [("quarter", 1/5), ("half", 1/10), ("eighth", 1/5),
             ("sixteenth", 1/5), ("dotted_quarter", 3/20),
             ("dotted_eighth", 1/10), ("whole", 1/20)])]

/-- The `SequenceConfig` dataclass, field defaults included. -/
structure SequenceConfig where
  key : String := "C"
  scale : String := "major"
  tempo : ℤ := 120
  time_signature_num : ℤ := 4
  time_signature_den : ℤ := 4
  num_bars : ℤ := 8
  octave_range : ℤ × ℤ := (4, 6)
  rhythm_pattern : String := "straight"
  note_duration_variety : String := "medium"
  rest_probability : ℚ := 1/10
  velocity_variation : Bool := true
  instrument : ℤ := 0
  deriving DecidableEq

/-- The all-defaults configuration `SequenceConfig()`. -/
def defaultConfig : SequenceConfig := {}

/-- The dataclass field names, in declaration order. -/
def configFieldNames : List String :=
  ["key", "scale", "tempo", "time_signature_num", "time_signature_den",
   "num_bars", "octave_range", "rhythm_pattern", "note_duration_variety",
   "rest_probability", "velocity_variation", "instrument"]

/-- Method `SequenceConfig.to_dict`: `asdict(self)` in field order, with
`octave_range` replaced by the 2-element list `[lo, hi]`. -/
def to_dict (c : SequenceConfig) : List (String × Value) :=
  [("key", .str c.key), ("scale", .str c.scale), ("tempo", .int c.tempo),
   ("time_signature_num", .int c.time_signature_num),
   ("time_signature_den", .int c.time_signature_den),
   ("num_bars", .int c.num_bars),
   ("octave_range", .intList [c.octave_range.1, c.octave_range.2]),
   ("rhythm_pattern", .str c.rhythm_pattern),
   ("note_duration_variety", .str c.note_duration_variety),
   ("rest_probability", .rat c.rest_probability),
   ("velocity_variation", .bool c.velocity_variation),
   ("instrument", .int c.instrument)]

/-- Decode a string-typed field: absent means the dataclass default. -/
def decodeStr (v : Option Value) (dflt : String) : Except GenError String :=
  match v with
  | none => .ok dflt
  | some (.str s) => .ok s
  | some _ => .error .illTypedValue

/-- Decode an int-typed field. -/
def decodeInt (v : Option Value) (dflt : ℤ) : Except GenError ℤ :=
  match v with
  | none => .ok dflt
  | some (.int z) => .ok z
  | some _ => .error .illTypedValue

/-- Decode a float-typed field (a Python int is accepted as well, as the
dynamically typed original would). -/
def decodeRat (v : Option Value) (dflt : ℚ) : Except GenError ℚ :=
  match v with
  | none => .ok dflt
  | some (.rat q) => .ok q
  | some (.int z) => .ok (z : ℚ)
  | some _ => .error .illTypedValue

/-- Decode a bool-typed field. -/
def decodeBool (v : Option Value) (dflt : Bool) : Except GenError Bool :=
  match v with
  | none => .ok dflt
  | some (.bool b) => .ok b
  | some _ => .error .illTypedValue

/-- Decode `octave_range`: `tuple(d["octave_range"])` of a 2-element
list of ints. -/
def decodePair (v : Option Value) (dflt : ℤ × ℤ) : Except GenError (ℤ × ℤ) :=
  match v with
  | none => .ok dflt
  | some (.intList [a, b]) => .ok (a, b)
  | some _ => .error .illTypedValue

/-- Method `SequenceConfig.from_dict`: convert `octave_range` to a tuple, then
call the dataclass constructor with the map as keyword arguments.  An
entry whose key is not a dataclass field makes `cls(**d)` raise
`TypeError`; a missing field takes the dataclass default; no range
validation of any kind is performed. -/
def from_dict (d : List (String × Value)) : Except GenError SequenceConfig :=
  if d.any (fun kv => !(configFieldNames.contains kv.1)) then
    .error .typeError
  else do
    let key ← decodeStr (dictLookup d "key") "C"
    let scale ← decodeStr (dictLookup d "scale") "major"
    let tempo ← decodeInt (dictLookup d "tempo") 120
    let tsn ← decodeInt (dictLookup d "time_signature_num") 4
    let tsd ← decodeInt (dictLookup d "time_signature_den") 4
    let bars ← decodeInt (dictLookup d "num_bars") 8
    let oct ← decodePair (dictLookup d "octave_range") (4, 6)
    let rp ← decodeStr (dictLookup d "rhythm_pattern") "straight"
    let variety ← decodeStr (dictLookup d "note_duration_variety") "medium"
    let rest ← decodeRat (dictLookup d "rest_probability") (1/10)
    let vv ← decodeBool (dictLookup d "velocity_variation") true
    let instr ← decodeInt (dictLookup d "instrument") 0
    .ok { key := key, scale := scale, tempo := tempo,
          time_signature_num := tsn, time_signature_den := tsd,
          num_bars := bars, octave_range := oct, rhythm_pattern := rp,
          note_duration_variety := variety, rest_probability := rest,
          velocity_variation := vv, instrument := instr }

/-! ### The random source -/

/-- The raw-draw stream is valid when every raw draw lies in `[0,1)`,
as `random.random()` guarantees. -/
def validRng (g : ℕ → ℚ) : Prop := ∀ i, 0 ≤ g i ∧ g i < 1

/-- The all-zeros draw stream. -/
def gZero : ℕ → ℚ := fun _ => 0

/-- Python `random.uniform(a, b) = a + (b - a) * random.random()`. -/
def pyUniform (r a b : ℚ) : ℚ := a + (b - a) * r

/-- Python `random.randint(a, b)`: a uniform integer in `[a, b]`. -/
def pyRandint (a b : ℤ) (r : ℚ) : ℤ := a + ⌊r * ((b : ℚ) - (a : ℚ) + 1)⌋

/-- Python `random.choice(seq)`: index by a uniform draw below `len(seq)`;
on an empty sequence CPython raises `IndexError` (`none` here). -/
def pyChoice (l : List ℤ) (r : ℚ) : Option ℤ :=
  l.get? (⌊r * (l.length : ℚ)⌋.toNat)

/-- Partial sums of a weight list (`itertools.accumulate`). -/
def cumWeights (ws : List ℚ) : List ℚ :=
  (List.scanl (· + ·) 0 ws).tail

/-- Count of the list elements that are `≤ x`. -/
def countLe (x : ℚ) : List ℚ → ℕ
  | [] => 0
  | c :: cs => (if c ≤ x then 1 else 0) + countLe x cs

/-- The bucket index drawn by `random.choices(..., weights=ws, k=1)`:
CPython computes `bisect(cum_weights, random() * total, 0, len - 1)`.
On the ascending cumulative-weight list this is the number of
strict-prefix cumulative weights that are `≤` the scaled draw, capped
at `len - 1` by dropping the last cumulative weight. -/
def pyWeightedIdx (ws : List ℚ) (r : ℚ) : ℕ :=
  countLe (r * (cumWeights ws).getLastD 0) ((cumWeights ws).dropLast)

/-! ### Generator helpers -/

/-- Method `MidiSequenceGenerator._pick_duration` (one weighted draw, so one
raw draw `r`).  The `"quarter"` / `0` fallbacks of `getD` are
unreachable: the drawn index stays below the profile length and every
profile name is a `NOTE_DURATIONS` key. -/
def _pick_duration (variety : String) (r : ℚ) : ℚ :=
  let profile := dictGetD DURATION_PROFILES variety mediumProfile
  let names := profile.map Prod.fst
  let weights := profile.map Prod.snd
  let chosen := names.getD (pyWeightedIdx weights r) "quarter"
  dictGetD NOTE_DURATIONS chosen 0

/-- Method `MidiSequenceGenerator._get_rhythm_pattern` (not consulted by
`generate`; kept to document the decoupling). -/
def _get_rhythm_pattern (pattern_key : String) (r : ℚ) : List ℚ :=
  if pattern_key == "mixed" then
    let pool := (RHYTHM_PATTERNS.filterMap Prod.snd)
    (pool.get? (⌊r * (pool.length : ℚ)⌋.toNat)).getD []
  else
    (dictGetD RHYTHM_PATTERNS pattern_key (some [1, 1, 1, 1])).getD [1, 1, 1, 1]

/-- Method `MidiSequenceGenerator._velocity`. -/
def _velocity (velocity_variation : Bool) (r : ℚ) : ℤ :=
  if velocity_variation then pyRandint 55 110 r else 80

/-- Python `range(lo, hi + 1)` over integers. -/
def intRange (lo hi : ℤ) : List ℤ :=
  (List.range (hi + 1 - lo).toNat).map (fun k => lo + k)

/-- Insertion of one element into a sorted list (for Python `sorted`). -/
def sortedInsert (x : ℤ) : List ℤ → List ℤ
  | [] => [x]
  | y :: ys => if x ≤ y then x :: y :: ys else y :: sortedInsert x ys

/-- Python `sorted` on a list of ints (insertion sort). -/
def pySorted : List ℤ → List ℤ
  | [] => []
  | x :: xs => sortedInsert x (pySorted xs)

/-- Method `MidiSequenceGenerator._get_scale_notes`: enumerate
`(octave + 1) * 12 + root + interval` over the octave range and the
scale intervals, keep pitches in `[21, 108]`, and sort.  Unknown key or
scale names raise `KeyError` in the Python dict accesses. -/
def _get_scale_notes (cfg : SequenceConfig) : Except GenError (List ℤ) :=
  match dictLookup KEY_OFFSETS cfg.key with
  | none => .error .keyError
  | some root =>
    match dictLookup SCALE_INTERVALS cfg.scale with
    | none => .error .keyError
    | some intervals =>
      let lo := cfg.octave_range.1
      let hi := cfg.octave_range.2
      let notes := (intRange lo hi).flatMap (fun octave =>
        intervals.filterMap (fun interval =>
          let midi_note := (octave + 1) * 12 + root + interval
          if 21 ≤ midi_note ∧ midi_note ≤ 108 then some midi_note else none))
      .ok (pySorted notes)

/-! ### The generation loop -/

/-- A `pretty_midi.Note`. -/
structure NoteEvent where
  velocity : ℤ
  pitch : ℤ
  start : ℚ
  end_ : ℚ
  deriving DecidableEq

/-- A `pretty_midi.Instrument`: a program number and its note list. -/
structure Instrument where
  program : ℤ
  notes : List NoteEvent
  deriving DecidableEq

/-- The mutable state threaded through the fill loop: the accumulated
note list, `note_count`, `pitch_histogram`, and the position `i` of the
next raw draw. -/
structure LoopSt where
  notes : List NoteEvent
  note_count : ℕ
  pitch_histogram : List ℕ
  i : ℕ
  deriving DecidableEq

/-- Statement `pitch_histogram[pitch % 12] += 1`. -/
def histInc (h : List ℕ) (k : ℕ) : List ℕ :=
  h.set k (h.getD k 0 + 1)

/-- One bar's `while t < bar_end - 0.01` loop.  The loop body follows
the source line by line; the fuel argument only bounds the number of
iterations and is proved sufficient for valid configurations. -/
def fillBar (p : ℚ) (variety : String) (velVar : Bool) (g : ℕ → ℚ)
    (scale_notes : List ℤ) (quarter_duration bar_end : ℚ) :
    ℕ → ℚ → LoopSt → Except GenError LoopSt
  | 0, _, _ => .error .fuelOut
  | fuel + 1, t, s =>
    if t < bar_end - 1/100 then
      let remaining := bar_end - t
      if g s.i < p then
        -- rest slot
        let rest_dur := min (_pick_duration variety (g (s.i + 1)) * quarter_duration) remaining
        fillBar p variety velVar g scale_notes quarter_duration bar_end fuel
          (t + rest_dur) { s with i := s.i + 2 }
      else
        match pyChoice scale_notes (g (s.i + 1)) with
        | none => .error .indexError
        | some note_midi =>
          let dur_beats := _pick_duration variety (g (s.i + 2))
          let dur_sec := min (dur_beats * quarter_duration) remaining
          let start := t + pyUniform (g (s.i + 3)) (-(1/100)) (1/100)
          let end0 := start + dur_sec * pyUniform (g (s.i + 4)) (85/100) (98/100)
          let note : NoteEvent :=
            { velocity := _velocity velVar (g (s.i + 5)),
              pitch := note_midi,
              start := max 0 start,
              end_ := max (start + 1/20) end0 }
          fillBar p variety velVar g scale_notes quarter_duration bar_end fuel
            (t + dur_sec)
            { notes := s.notes ++ [note],
              note_count := s.note_count + 1,
              pitch_histogram := histInc s.pitch_histogram (note_midi % 12).toNat,
              i := s.i + (if velVar then 6 else 5) }
    else .ok s

/-- The `for bar in range(total_bars)` loop: each bar restarts `t` at
`bar * bar_duration` and fills up to `bar_start + bar_duration`. -/
def runBars (p : ℚ) (variety : String) (velVar : Bool) (g : ℕ → ℚ)
    (scale_notes : List ℤ) (quarter_duration bar_duration : ℚ) (fuel : ℕ) :
    ℕ → ℕ → LoopSt → Except GenError LoopSt
  | 0, _, s => .ok s
  | n + 1, bar, s =>
    match fillBar p variety velVar g scale_notes quarter_duration
        ((bar : ℚ) * bar_duration + bar_duration) fuel ((bar : ℚ) * bar_duration) s with
    | .error e => .error e
    | .ok s1 =>
      runBars p variety velVar g scale_notes quarter_duration bar_duration fuel
        n (bar + 1) s1

/-- Python `round(x, 2)` idealized over exact rationals: round half to
even at two decimal places. -/
def pyRoundHalfEven (x : ℚ) : ℤ :=
  if x - ⌊x⌋ < 1/2 then ⌊x⌋
  else if 1/2 < x - ⌊x⌋ then ⌊x⌋ + 1
  else if 2 ∣ ⌊x⌋ then ⌊x⌋ else ⌊x⌋ + 1

/-- Python `round(x, 2)`. -/
def py_round2 (x : ℚ) : ℚ := (pyRoundHalfEven (x * 100) : ℚ) / 100

/-- The generation result: the single-instrument `PrettyMIDI` object
plus the metadata record (the non-deterministic `uuid` aside). -/
structure GenResult where
  initial_tempo : ℤ
  config : List (String × Value)
  instruments : List Instrument
  note_count : ℕ
  duration_seconds : ℚ
  pitch_histogram : List ℕ
  scale_notes_used : List ℤ
  deriving DecidableEq

/-- Method `MidiSequenceGenerator.generate`.  The locals of the source
are inlined: `quarter_duration = 60 / tempo`,
`bar_duration = time_signature_num * quarter_duration`,
`beats_per_bar = time_signature_num`. -/
def generate (cfg : SequenceConfig) (g : ℕ → ℚ) : Except GenError GenResult :=
  (_get_scale_notes cfg).bind (fun scale_notes =>
    (runBars cfg.rest_probability cfg.note_duration_variety
        cfg.velocity_variation g scale_notes (60 / (cfg.tempo : ℚ))
        ((cfg.time_signature_num : ℚ) * (60 / (cfg.tempo : ℚ)))
        (4 * cfg.time_signature_num.toNat + 2) cfg.num_bars.toNat 0
        ⟨[], 0, List.replicate 12 0, 0⟩).map (fun s =>
      { initial_tempo := cfg.tempo,
        config := to_dict cfg,
        instruments := [{ program := cfg.instrument, notes := s.notes }],
        note_count := s.note_count,
        duration_seconds :=
          py_round2 ((cfg.num_bars : ℚ) * (cfg.time_signature_num : ℚ) * (60 / (cfg.tempo : ℚ))),
        pitch_histogram := s.pitch_histogram,
        scale_notes_used := scale_notes }))

/-! ### Checkers and concrete inputs used by the claim theorems -/

/-- Returns `true` unless the value is the fuel-exhaustion modelling artefact. -/
def notFuelOut {α : Type} : Except GenError α → Bool
  | .error .fuelOut => false
  | _ => true

/-- The per-note invariant of the amended C6: pitch within MIDI range,
clamped start nonnegative, end after start, and a gap of at least
`0.04` seconds. -/
def noteWithinSpec (n : NoteEvent) : Bool :=
  decide (0 ≤ n.pitch) && decide (n.pitch ≤ 127) && decide (0 ≤ n.start) &&
  decide (n.start < n.end_) && decide (1/25 ≤ n.end_ - n.start)

/-- All emitted notes satisfy `noteWithinSpec`. -/
def allNotesWithin (r : GenResult) : Bool :=
  r.instruments.all (fun ins => ins.notes.all noteWithinSpec)

/-- All emitted notes carry velocity 80. -/
def velAll80 (r : GenResult) : Bool :=
  r.instruments.all (fun ins => ins.notes.all (fun n => n.velocity == 80))

/-- The C10 result invariant for instrument program `prog`. -/
def trackCheck (prog : ℤ) (r : GenResult) : Bool :=
  (r.instruments.length == 1) &&
  r.instruments.all (fun ins =>
    (ins.program == prog) && (ins.notes.length == r.note_count)) &&
  (r.note_count == r.pitch_histogram.sum) && (r.pitch_histogram.length == 12)

/-- The engine output with the configuration echo removed: the note
events and all derived statistics. -/
def engineOutput (r : GenResult) :
    ℤ × List Instrument × ℕ × ℚ × List ℕ × List ℤ :=
  (r.initial_tempo, r.instruments, r.note_count, r.duration_seconds,
   r.pitch_histogram, r.scale_notes_used)

/-- A configuration whose scale-note universe is empty (octave 9 puts
every pitch above 108) and which rests on every slot. -/
def cfgEmptyRestful : SequenceConfig :=
  { octave_range := (9, 9), rest_probability := 1, num_bars := 1 }

/-- A configuration whose scale-note universe is empty and which never
rests. -/
def cfgEmptyNoRest : SequenceConfig :=
  { octave_range := (9, 9), rest_probability := 0, num_bars := 1 }

/-- The `octave_range = (0, 0)`, C major configuration cited by the
spec's OutOfRange example. -/
def cfgOct00 : SequenceConfig := { octave_range := (0, 0) }

/-- The fully pinned example configuration of C2. -/
def cfgC2 : SequenceConfig :=
  { key := "C", scale := "major", tempo := 120, time_signature_num := 4,
    time_signature_den := 4, num_bars := 1, octave_range := (4, 4),
    rhythm_pattern := "straight", note_duration_variety := "low",
    rest_probability := 0, velocity_variation := false, instrument := 0 }

/-- A valid configuration on which the exact duration formula of C4
fails (`1 * 4 * (60/90) = 8/3` is not a hundredth). -/
def cfgC4 : SequenceConfig :=
  { tempo := 90, num_bars := 1, rest_probability := 1 }

/-- A valid configuration on which the 0.05-second minimum gap of C6
fails: at 300 bpm a sixteenth lasts 0.05 s, and a first-slot note with
jitter `-0.01` is clamped to start 0 while ending at `0.04`. -/
def cfgC6 : SequenceConfig :=
  { tempo := 300, num_bars := 1, octave_range := (4, 4),
    note_duration_variety := "high", rest_probability := 1/2,
    velocity_variation := false }

/-- The draw stream exhibiting the C6 violation: slot 1 takes the note
branch (draw `1/2` at index 0), picks pitch 60, a sixteenth duration
(draw `1/2` at index 2), jitter `-0.01` and articulation `0.85`
(zero draws); slot 2 rests with a whole-note duration (draw `24/25`)
that exhausts the bar. -/
def gC6 : ℕ → ℚ :=
  fun i => if i = 0 then 1/2 else if i = 2 then 1/2 else if i = 6 then 24/25 else 0

/-- The all-defaults configuration with `rest_probability = 1`. -/
def cfgRest1 : SequenceConfig := { rest_probability := 1 }

/-! ## Helper lemmas -/

theorem validRng_gZero : validRng gZero :=
  fun _ => ⟨le_refl 0, by norm_num [gZero]⟩

/-! ## C5: serialization round-trip -/

/-- C5: for every configuration value, `from_dict (to_dict c)` succeeds
and yields a configuration equal to `c` in every field, the ordered
`octave_range` pair included (it travels as the 2-element list
`[lo, hi]` and is restored in order). -/
theorem roundtrip_from_to_dict (c : SequenceConfig) :
    from_dict (to_dict c) = .ok c := rfl

/-! ## C3: permissiveness of from_dict -/

/-- C3 counterexample: contrary to the claim, a map key that is not a
configuration field is not ignored (the keyword-argument call raises
`TypeError`), and a map missing every required field does not fail: it
succeeds with the dataclass defaults. -/
theorem from_dict_unknown_key_fails_missing_defaults :
    from_dict [("not_a_field", Value.int 1)] = .error .typeError ∧
    from_dict [] = .ok defaultConfig :=
  ⟨rfl, rfl⟩

/-- C3 (amended): `from_dict` raises `TypeError` whenever the map holds
a key that is not a configuration field; missing fields silently take
the dataclass defaults instead of failing; and no range validation is
performed (a negative tempo is accepted). -/
theorem from_dict_permissive (d : List (String × Value)) (kv : String × Value)
    (hmem : kv ∈ d) (hunk : configFieldNames.contains kv.1 = false) :
    from_dict d = .error .typeError ∧
    from_dict [] = .ok defaultConfig ∧
    from_dict [("tempo", Value.int (-5))] = .ok { defaultConfig with tempo := -5 } := by
  refine ⟨?_, rfl, rfl⟩
  unfold from_dict
  rw [if_pos]
  refine List.any_eq_true.mpr ⟨kv, hmem, ?_⟩
  rw [hunk]
  rfl

/-- Witness for the amended C3 at the concrete map `[("extra", 7)]`. -/
theorem from_dict_permissive_witness :
    from_dict [("extra", Value.int 7)] = .error .typeError ∧
    from_dict [] = .ok defaultConfig ∧
    from_dict [("tempo", Value.int (-5))] = .ok { defaultConfig with tempo := -5 } :=
  from_dict_permissive [("extra", Value.int 7)] ("extra", Value.int 7)
    (by simp) (by decide)

/-! ## C4: the duration statistic -/

/-- C4 (amended): whenever `generate` returns a result, its
`duration_seconds` statistic equals
`round(num_bars * time_signature_num * (60 / tempo), 2)` — a value
computed from the configuration alone, independent of the notes
actually emitted, but rounded to two decimals rather than exact. -/
theorem duration_seconds_formula (cfg : SequenceConfig) (g : ℕ → ℚ) :
    Except.map GenResult.duration_seconds (generate cfg g) =
      Except.map
        (fun _ => py_round2
          ((cfg.num_bars : ℚ) * (cfg.time_signature_num : ℚ) * (60 / (cfg.tempo : ℚ))))
        (generate cfg g) := by
  unfold generate
  rcases _get_scale_notes cfg with e | sn
  · rfl
  · dsimp only [Except.bind]
    rcases runBars cfg.rest_probability cfg.note_duration_variety
        cfg.velocity_variation g sn (60 / (cfg.tempo : ℚ))
        ((cfg.time_signature_num : ℚ) * (60 / (cfg.tempo : ℚ)))
        (4 * cfg.time_signature_num.toNat + 2) cfg.num_bars.toNat 0
        ⟨[], 0, List.replicate 12 0, 0⟩ with e | s
    · rfl
    · rfl

/-! ## C8: rhythm-pattern independence -/

/-- C8: the engine output (note events and every statistic) does not
depend on the `rhythm_pattern` field: changing only that field, and
feeding the identical stream of raw draws, produces the identical
instrument track and statistics, because the fill loop samples
durations from the duration-variety table and never consults the
rhythm pattern. -/
theorem rhythm_pattern_independent (cfg : SequenceConfig) (rp : String) (g : ℕ → ℚ) :
    Except.map engineOutput (generate { cfg with rhythm_pattern := rp } g) =
      Except.map engineOutput (generate cfg g) := by
  unfold generate
  rw [show _get_scale_notes { cfg with rhythm_pattern := rp } = _get_scale_notes cfg
    from rfl]
  dsimp only
  rcases _get_scale_notes cfg with e | sn
  · rfl
  · dsimp only [Except.bind]
    rcases runBars cfg.rest_probability cfg.note_duration_variety
        cfg.velocity_variation g sn (60 / (cfg.tempo : ℚ))
        ((cfg.time_signature_num : ℚ) * (60 / (cfg.tempo : ℚ)))
        (4 * cfg.time_signature_num.toNat + 2) cfg.num_bars.toNat 0
        ⟨[], 0, List.replicate 12 0, 0⟩ with e | s
    · rfl
    · rfl

/-! ## Duration-profile and scale-note facts -/

theorem getD_mem_or {α : Type} (l : List α) (n : ℕ) (d : α) :
    l.getD n d ∈ l ∨ l.getD n d = d := by
  simp only [List.getD]
  rcases h : l.get? n with _ | a
  · right; rfl
  · left
    show a ∈ l
    obtain ⟨hn, rfl⟩ := List.get?_eq_some.mp h
    exact List.get_mem l n hn

theorem note_durations_ge (name : String)
    (hmem : name ∈ ["whole", "half", "quarter", "eighth", "sixteenth",
      "dotted_quarter", "dotted_eighth"]) :
    1/4 ≤ dictGetD NOTE_DURATIONS name 0 := by
  fin_cases hmem <;>
    norm_num [show dictGetD NOTE_DURATIONS "whole" 0 = 4 from rfl,
      show dictGetD NOTE_DURATIONS "half" 0 = 2 from rfl,
      show dictGetD NOTE_DURATIONS "quarter" 0 = 1 from rfl,
      show dictGetD NOTE_DURATIONS "eighth" 0 = 1/2 from rfl,
      show dictGetD NOTE_DURATIONS "sixteenth" 0 = 1/4 from rfl,
      show dictGetD NOTE_DURATIONS "dotted_quarter" 0 = 3/2 from rfl,
      show dictGetD NOTE_DURATIONS "dotted_eighth" 0 = 3/4 from rfl]

theorem profile_cases (variety : String) :
    dictGetD DURATION_PROFILES variety mediumProfile =
        [("quarter", 7/10), ("half", 1/5), ("eighth", 1/10)] ∨
      dictGetD DURATION_PROFILES variety mediumProfile = mediumProfile ∨
      dictGetD DURATION_PROFILES variety mediumProfile =
        [("quarter", 1/5), ("half", 1/10), ("eighth", 1/5),
         ("sixteenth", 1/5), ("dotted_quarter", 3/20),
         ("dotted_eighth", 1/10), ("whole", 1/20)] := by
  unfold dictGetD dictLookup
  rcases h : DURATION_PROFILES.find? (fun kv => kv.1 == variety) with _ | kv
  · right; left; rw [h]; rfl
  · have hmem := List.mem_of_find?_eq_some h
    rw [h]
    simp only [DURATION_PROFILES, List.mem_cons, List.not_mem_nil, or_false] at hmem
    rcases hmem with h1 | h1 | h1 <;> rw [h1] <;> simp [mediumProfile]

theorem pick_from_profile_ge (profile : List (String × ℚ)) (r : ℚ)
    (hnames : ∀ name ∈ profile.map Prod.fst,
      name ∈ ["whole", "half", "quarter", "eighth", "sixteenth",
        "dotted_quarter", "dotted_eighth"]) :
    1/4 ≤ dictGetD NOTE_DURATIONS
      ((profile.map Prod.fst).getD (pyWeightedIdx (profile.map Prod.snd) r) "quarter") 0 := by
  rcases getD_mem_or (profile.map Prod.fst)
      (pyWeightedIdx (profile.map Prod.snd) r) "quarter" with h | h
  · exact note_durations_ge _ (hnames _ h)
  · rw [h]
    norm_num [show dictGetD NOTE_DURATIONS "quarter" 0 = 1 from rfl]

theorem _pick_duration_ge (variety : String) (r : ℚ) :
    1/4 ≤ _pick_duration variety r := by
  unfold _pick_duration
  dsimp only
  refine pick_from_profile_ge _ r ?_
  intro name hn
  rcases profile_cases variety with hp | hp | hp <;> rw [hp] at hn <;>
    simp only [mediumProfile, List.map_cons, List.map_nil] at hn <;>
    fin_cases hn <;> decide

theorem sortedInsert_mem (x y : ℤ) (l : List ℤ) :
    y ∈ sortedInsert x l ↔ y = x ∨ y ∈ l := by
  induction l with
  | nil => simp [sortedInsert]
  | cons a as ih =>
    by_cases h : x ≤ a
    · simp [sortedInsert, h]
    · simp only [sortedInsert, if_neg h, List.mem_cons, ih]
      tauto

theorem pySorted_mem (y : ℤ) (l : List ℤ) : y ∈ pySorted l ↔ y ∈ l := by
  induction l with
  | nil => simp [pySorted]
  | cons a as ih => simp [pySorted, sortedInsert_mem, ih]

theorem scale_notes_range (cfg : SequenceConfig) (l : List ℤ)
    (h : _get_scale_notes cfg = .ok l) : ∀ x ∈ l, 21 ≤ x ∧ x ≤ 108 := by
  unfold _get_scale_notes at h
  rcases hk : dictLookup KEY_OFFSETS cfg.key with _ | root
  · rw [hk] at h; cases h
  · rw [hk] at h
    rcases hs : dictLookup SCALE_INTERVALS cfg.scale with _ | ivs
    · rw [hs] at h; cases h
    · rw [hs] at h
      dsimp only at h
      cases h
      intro x hx
      rw [pySorted_mem] at hx
      simp only [List.mem_flatMap, List.mem_filterMap] at hx
      obtain ⟨octave, _, interval, _, hif⟩ := hx
      by_cases hb : 21 ≤ (octave + 1) * 12 + root + interval ∧
          (octave + 1) * 12 + root + interval ≤ 108
      · rw [if_pos hb] at hif
        cases hif
        exact hb
      · rw [if_neg hb] at hif
        cases hif

theorem _get_scale_notes_error (cfg : SequenceConfig) (e : GenError)
    (h : _get_scale_notes cfg = .error e) : e = .keyError := by
  unfold _get_scale_notes at h
  rcases hk : dictLookup KEY_OFFSETS cfg.key with _ | root
  · rw [hk] at h
    simp only [Except.error.injEq] at h
    exact h.symm
  · rw [hk] at h
    rcases hs : dictLookup SCALE_INTERVALS cfg.scale with _ | ivs
    · rw [hs] at h
      simp only [Except.error.injEq] at h
      exact h.symm
    · rw [hs] at h
      dsimp only at h
      cases h

/-! ## Loop invariants: counts and histogram -/

theorem histInc_sum (h : List ℕ) (k : ℕ) (hk : k < h.length) :
    (histInc h k).sum = h.sum + 1 := by
  unfold histInc
  induction h generalizing k with
  | nil => simp at hk
  | cons a as ih =>
    cases k with
    | zero =>
      simp [List.getD]
      omega
    | succ k =>
      simp only [List.set, List.sum_cons, List.getD_cons_succ]
      rw [ih k (by simpa using hk)]
      omega

theorem fillBar_preserves_counts (p : ℚ) (v : String) (vv : Bool) (g : ℕ → ℚ)
    (sn : List ℤ) (qd be : ℚ) :
    ∀ fuel t s s1, fillBar p v vv g sn qd be fuel t s = .ok s1 →
      s.notes.length = s.note_count ∧ s.note_count = s.pitch_histogram.sum ∧
        s.pitch_histogram.length = 12 →
      s1.notes.length = s1.note_count ∧ s1.note_count = s1.pitch_histogram.sum ∧
        s1.pitch_histogram.length = 12 := by
  intro fuel
  induction fuel with
  | zero => intro t s s1 h; simp [fillBar] at h
  | succ f ih =>
    intro t s s1 h hinv
    rw [fillBar] at h
    by_cases hlt : t < be - 1/100
    · rw [if_pos hlt] at h
      dsimp only at h
      by_cases hr : g s.i < p
      · rw [if_pos hr] at h
        exact ih _ _ _ h hinv
      · rw [if_neg hr] at h
        rcases hc : pyChoice sn (g (s.i + 1)) with _ | midi
        · rw [hc] at h; cases h
        · rw [hc] at h
          dsimp only at h
          refine ih _ _ _ h ?_
          have hmod : ((midi % 12).toNat) < 12 := by
            have h1 : 0 ≤ midi % 12 := Int.emod_nonneg _ (by norm_num)
            have h2 : midi % 12 < 12 := Int.emod_lt_of_pos _ (by norm_num)
            omega
          refine ⟨?_, ?_, ?_⟩
          · simp [hinv.1]
          · rw [histInc_sum _ _ (by rw [hinv.2.2]; exact hmod)]
            simp [hinv.2.1]
          · simp [histInc, hinv.2.2]
    · rw [if_neg hlt] at h
      cases h
      exact hinv

theorem runBars_preserves_counts (p : ℚ) (v : String) (vv : Bool) (g : ℕ → ℚ)
    (sn : List ℤ) (qd bd : ℚ) (fuel : ℕ) :
    ∀ n bar s s1, runBars p v vv g sn qd bd fuel n bar s = .ok s1 →
      s.notes.length = s.note_count ∧ s.note_count = s.pitch_histogram.sum ∧
        s.pitch_histogram.length = 12 →
      s1.notes.length = s1.note_count ∧ s1.note_count = s1.pitch_histogram.sum ∧
        s1.pitch_histogram.length = 12 := by
  intro n
  induction n with
  | zero =>
    intro bar s s1 h hinv
    cases h
    exact hinv
  | succ n ih =>
    intro bar s s1 h hinv
    rw [runBars] at h
    rcases hf : fillBar p v vv g sn qd ((bar : ℚ) * bd + bd) fuel ((bar : ℚ) * bd) s
        with e | s2
    · rw [hf] at h; cases h
    · rw [hf] at h
      exact ih _ _ _ h (fillBar_preserves_counts p v vv g sn qd _ _ _ _ _ hf hinv)

/-! ## C10: single track, program number, consistent statistics -/

/-- C10: every result of `generate` holds exactly one instrument track,
its program number is the configuration's `instrument` field, the track
holds exactly `note_count` note events, and `note_count` equals the sum
of the 12-element pitch histogram. -/
theorem single_track_stats (cfg : SequenceConfig) (g : ℕ → ℚ) :
    Except.map (trackCheck cfg.instrument) (generate cfg g) =
      Except.map (fun _ => true) (generate cfg g) := by
  unfold generate
  rcases _get_scale_notes cfg with e | sn
  · rfl
  · dsimp only [Except.bind]
    rcases hr : runBars cfg.rest_probability cfg.note_duration_variety
        cfg.velocity_variation g sn (60 / (cfg.tempo : ℚ))
        ((cfg.time_signature_num : ℚ) * (60 / (cfg.tempo : ℚ)))
        (4 * cfg.time_signature_num.toNat + 2) cfg.num_bars.toNat 0
        ⟨[], 0, List.replicate 12 0, 0⟩ with e | s
    · rfl
    · have hinv := runBars_preserves_counts cfg.rest_probability
        cfg.note_duration_variety cfg.velocity_variation g sn
        (60 / (cfg.tempo : ℚ))
        ((cfg.time_signature_num : ℚ) * (60 / (cfg.tempo : ℚ)))
        (4 * cfg.time_signature_num.toNat + 2) cfg.num_bars.toNat 0 _ _ hr
        (by simp)
      simp only [Except.map]
      congr 1
      simp only [trackCheck, List.all_cons, List.all_nil, List.length_cons,
        List.length_nil, Bool.and_true]
      rw [hinv.1, ← hinv.2.1, hinv.2.2]
      simp

/-! ## Velocity invariant -/

theorem fillBar_vel80 (p : ℚ) (v : String) (g : ℕ → ℚ) (sn : List ℤ) (qd be : ℚ) :
    ∀ fuel t s s1, fillBar p v false g sn qd be fuel t s = .ok s1 →
      (∀ n ∈ s.notes, n.velocity = 80) → ∀ n ∈ s1.notes, n.velocity = 80 := by
  intro fuel
  induction fuel with
  | zero => intro t s s1 h; simp [fillBar] at h
  | succ f ih =>
    intro t s s1 h hs
    rw [fillBar] at h
    by_cases hlt : t < be - 1/100
    · rw [if_pos hlt] at h
      dsimp only at h
      by_cases hr : g s.i < p
      · rw [if_pos hr] at h
        exact ih _ _ _ h hs
      · rw [if_neg hr] at h
        rcases hc : pyChoice sn (g (s.i + 1)) with _ | midi
        · rw [hc] at h; cases h
        · rw [hc] at h
          dsimp only at h
          refine ih _ _ _ h ?_
          intro n hn
          rcases List.mem_append.mp hn with hn | hn
          · exact hs n hn
          · simp only [List.mem_singleton] at hn
            subst hn
            rfl
    · rw [if_neg hlt] at h
      cases h
      exact hs

theorem runBars_vel80 (p : ℚ) (v : String) (g : ℕ → ℚ) (sn : List ℤ)
    (qd bd : ℚ) (fuel : ℕ) :
    ∀ n bar s s1, runBars p v false g sn qd bd fuel n bar s = .ok s1 →
      (∀ x ∈ s.notes, x.velocity = 80) → ∀ x ∈ s1.notes, x.velocity = 80 := by
  intro n
  induction n with
  | zero =>
    intro bar s s1 h hs
    cases h
    exact hs
  | succ n ih =>
    intro bar s s1 h hs
    rw [runBars] at h
    rcases hf : fillBar p v false g sn qd ((bar : ℚ) * bd + bd) fuel ((bar : ℚ) * bd) s
        with e | s2
    · rw [hf] at h; cases h
    · rw [hf] at h
      exact ih _ _ _ h (fillBar_vel80 p v g sn qd _ _ _ _ _ hf hs)

theorem generate_vel80 (cfg : SequenceConfig) (g : ℕ → ℚ)
    (hvv : cfg.velocity_variation = false) :
    Except.map velAll80 (generate cfg g) =
      Except.map (fun _ => true) (generate cfg g) := by
  unfold generate
  rw [hvv]
  rcases _get_scale_notes cfg with e | sn
  · rfl
  · dsimp only [Except.bind]
    rcases hr : runBars cfg.rest_probability cfg.note_duration_variety
        false g sn (60 / (cfg.tempo : ℚ))
        ((cfg.time_signature_num : ℚ) * (60 / (cfg.tempo : ℚ)))
        (4 * cfg.time_signature_num.toNat + 2) cfg.num_bars.toNat 0
        ⟨[], 0, List.replicate 12 0, 0⟩ with e | s
    · rfl
    · have hvel := runBars_vel80 cfg.rest_probability cfg.note_duration_variety
        g sn (60 / (cfg.tempo : ℚ))
        ((cfg.time_signature_num : ℚ) * (60 / (cfg.tempo : ℚ)))
        (4 * cfg.time_signature_num.toNat + 2) cfg.num_bars.toNat 0 _ _ hr
        (by simp)
      simp only [Except.map]
      congr 1
      simp only [velAll80, List.all_cons, List.all_nil, Bool.and_true]
      rw [List.all_eq_true]
      intro n hn
      simpa using hvel n hn

/-! ## Fuel adequacy (termination) -/

theorem fillBar_terminates (p : ℚ) (v : String) (vv : Bool) (g : ℕ → ℚ)
    (sn : List ℤ) (qd be : ℚ) (hqd : 0 < qd) :
    ∀ (fuel : ℕ) (t : ℚ) (s : LoopSt), be - t ≤ 1/100 + (fuel : ℚ) * (qd / 4) →
      notFuelOut (fillBar p v vv g sn qd be (fuel + 1) t s) = true := by
  intro fuel
  induction fuel with
  | zero =>
    intro t s hle
    push_cast at hle
    rw [fillBar, if_neg (by linarith)]
    rfl
  | succ f ih =>
    intro t s hle
    push_cast at hle
    rw [fillBar]
    by_cases hlt : t < be - 1/100
    · rw [if_pos hlt]
      dsimp only
      by_cases hr : g s.i < p
      · rw [if_pos hr]
        apply ih
        have hd := _pick_duration_ge v (g (s.i + 1))
        have hdq : qd / 4 ≤ _pick_duration v (g (s.i + 1)) * qd := by nlinarith
        rcases le_total (_pick_duration v (g (s.i + 1)) * qd) (be - t) with hm | hm
        · rw [min_eq_left hm]
          linarith
        · rw [min_eq_right hm]
          have hf4 : (0:ℚ) ≤ (f : ℚ) * (qd / 4) := by positivity
          linarith
      · rw [if_neg hr]
        rcases pyChoice sn (g (s.i + 1)) with _ | midi
        · rfl
        · dsimp only
          apply ih
          have hd := _pick_duration_ge v (g (s.i + 2))
          have hdq : qd / 4 ≤ _pick_duration v (g (s.i + 2)) * qd := by nlinarith
          rcases le_total (_pick_duration v (g (s.i + 2)) * qd) (be - t) with hm | hm
          · rw [min_eq_left hm]
            linarith
          · rw [min_eq_right hm]
            have hf4 : (0:ℚ) ≤ (f : ℚ) * (qd / 4) := by positivity
            linarith
    · rw [if_neg hlt]
      rfl

theorem notFuelOut_map {α β : Type} (f : α → β) (x : Except GenError α) :
    notFuelOut (Except.map f x) = notFuelOut x := by
  cases x with
  | error e => cases e <;> rfl
  | ok a => rfl

theorem runBars_terminates (p : ℚ) (v : String) (vv : Bool) (g : ℕ → ℚ)
    (sn : List ℤ) (qd bd : ℚ) (fp : ℕ) (hqd : 0 < qd)
    (hbd : bd ≤ 1/100 + fp * (qd / 4)) :
    ∀ n bar s, notFuelOut (runBars p v vv g sn qd bd (fp + 1) n bar s) = true := by
  intro n
  induction n with
  | zero => intro bar s; rfl
  | succ n ih =>
    intro bar s
    rw [runBars]
    rcases hf : fillBar p v vv g sn qd ((bar : ℚ) * bd + bd) (fp + 1) ((bar : ℚ) * bd) s
        with e | s2
    · have hterm := fillBar_terminates p v vv g sn qd ((bar : ℚ) * bd + bd) hqd fp
        ((bar : ℚ) * bd) s (by ring_nf; linarith)
      rw [hf] at hterm
      dsimp only
      exact hterm
    · dsimp only
      exact ih (bar + 1) s2

/-- C9: for every configuration with positive tempo and a bar of at
least one beat, and every draw stream, the per-bar fill loop of
`generate` terminates within the modelled iteration bound (the time
cursor advances by at least `min(quarter/4, remaining)` each pass), so
`generate` never runs out of fuel: it cannot diverge. -/
theorem generate_terminates (cfg : SequenceConfig) (g : ℕ → ℚ)
    (h1 : 0 < cfg.tempo) (h2 : 1 ≤ cfg.time_signature_num) :
    notFuelOut (generate cfg g) = true := by
  unfold generate
  rcases hsc : _get_scale_notes cfg with e | sn
  · rw [_get_scale_notes_error cfg e hsc]
    rfl
  · dsimp only [Except.bind]
    rw [notFuelOut_map]
    have hqd : (0:ℚ) < 60 / (cfg.tempo : ℚ) := by
      apply div_pos (by norm_num)
      exact_mod_cast h1
    have hts : ((cfg.time_signature_num.toNat : ℚ)) = (cfg.time_signature_num : ℚ) := by
      exact_mod_cast Int.toNat_of_nonneg (by omega)
    rw [show 4 * cfg.time_signature_num.toNat + 2 =
      (4 * cfg.time_signature_num.toNat + 1) + 1 from by omega]
    refine runBars_terminates cfg.rest_probability cfg.note_duration_variety
      cfg.velocity_variation g sn (60 / (cfg.tempo : ℚ))
      ((cfg.time_signature_num : ℚ) * (60 / (cfg.tempo : ℚ)))
      (4 * cfg.time_signature_num.toNat + 1) hqd ?_ cfg.num_bars.toNat 0 _
    push_cast
    rw [hts]
    nlinarith

/-- Witness for C9 at the all-defaults configuration and the all-zero
draw stream. -/
theorem generate_terminates_witness :
    0 < defaultConfig.tempo ∧ 1 ≤ defaultConfig.time_signature_num ∧
      notFuelOut (generate defaultConfig gZero) = true :=
  ⟨by decide, by decide, generate_terminates defaultConfig gZero (by decide) (by decide)⟩

/-! ## The all-rest run -/

theorem fillBar_all_rest (p : ℚ) (v : String) (vv : Bool) (g : ℕ → ℚ)
    (sn : List ℤ) (qd be : ℚ) (hqd : 0 < qd) (hg : validRng g) (hp : 1 ≤ p) :
    ∀ (fuel : ℕ) (t : ℚ) (s : LoopSt), be - t ≤ 1/100 + (fuel : ℚ) * (qd / 4) →
      ∃ j, fillBar p v vv g sn qd be (fuel + 1) t s = .ok { s with i := j } := by
  intro fuel
  induction fuel with
  | zero =>
    intro t s hle
    push_cast at hle
    exact ⟨s.i, by rw [fillBar, if_neg (by linarith)]⟩
  | succ f ih =>
    intro t s hle
    push_cast at hle
    by_cases hlt : t < be - 1/100
    · have hr : g s.i < p := lt_of_lt_of_le (hg s.i).2 hp
      have hd := _pick_duration_ge v (g (s.i + 1))
      have hdq : qd / 4 ≤ _pick_duration v (g (s.i + 1)) * qd := by nlinarith
      have step : be - (t + min (_pick_duration v (g (s.i + 1)) * qd) (be - t)) ≤
          1/100 + (f : ℚ) * (qd / 4) := by
        rcases le_total (_pick_duration v (g (s.i + 1)) * qd) (be - t) with hm | hm
        · rw [min_eq_left hm]
          linarith
        · rw [min_eq_right hm]
          have hf4 : (0:ℚ) ≤ (f : ℚ) * (qd / 4) := by positivity
          linarith
      obtain ⟨j, hj⟩ := ih (t + min (_pick_duration v (g (s.i + 1)) * qd) (be - t))
        { s with i := s.i + 2 } step
      refine ⟨j, ?_⟩
      rw [fillBar, if_pos hlt]
      dsimp only
      rw [if_pos hr]
      exact hj
    · exact ⟨s.i, by rw [fillBar, if_neg hlt]⟩

theorem runBars_all_rest (p : ℚ) (v : String) (vv : Bool) (g : ℕ → ℚ)
    (sn : List ℤ) (qd bd : ℚ) (fp : ℕ) (hqd : 0 < qd) (hg : validRng g)
    (hp : 1 ≤ p) (hbd : bd ≤ 1/100 + fp * (qd / 4)) :
    ∀ n bar s, ∃ j, runBars p v vv g sn qd bd (fp + 1) n bar s = .ok { s with i := j } := by
  intro n
  induction n with
  | zero => intro bar s; exact ⟨s.i, rfl⟩
  | succ n ih =>
    intro bar s
    obtain ⟨j1, hj1⟩ := fillBar_all_rest p v vv g sn qd ((bar : ℚ) * bd + bd) hqd hg hp
      fp ((bar : ℚ) * bd) s (by ring_nf; linarith)
    obtain ⟨j2, hj2⟩ := ih (bar + 1) { s with i := j1 }
    refine ⟨j2, ?_⟩
    rw [runBars, hj1]
    exact hj2

theorem generate_all_rest (cfg : SequenceConfig) (g : ℕ → ℚ) (hg : validRng g)
    (h1 : 0 < cfg.tempo) (h2 : 1 ≤ cfg.time_signature_num)
    (hp : 1 ≤ cfg.rest_probability) (l : List ℤ)
    (hsc : _get_scale_notes cfg = .ok l) :
    Except.map (fun r => (r.note_count, r.instruments.map Instrument.notes))
        (generate cfg g) = .ok (0, [[]]) ∧
      Except.map GenResult.duration_seconds (generate cfg g) =
        .ok (py_round2 ((cfg.num_bars : ℚ) * (cfg.time_signature_num : ℚ) *
          (60 / (cfg.tempo : ℚ)))) := by
  unfold generate
  rw [hsc]
  dsimp only [Except.bind]
  have hqd : (0:ℚ) < 60 / (cfg.tempo : ℚ) := by
    apply div_pos (by norm_num)
    exact_mod_cast h1
  have hts : ((cfg.time_signature_num.toNat : ℚ)) = (cfg.time_signature_num : ℚ) := by
    exact_mod_cast Int.toNat_of_nonneg (by omega)
  rw [show 4 * cfg.time_signature_num.toNat + 2 =
    (4 * cfg.time_signature_num.toNat + 1) + 1 from by omega]
  obtain ⟨j, hj⟩ := runBars_all_rest cfg.rest_probability cfg.note_duration_variety
    cfg.velocity_variation g l (60 / (cfg.tempo : ℚ))
    ((cfg.time_signature_num : ℚ) * (60 / (cfg.tempo : ℚ)))
    (4 * cfg.time_signature_num.toNat + 1) hqd hg hp
    (by push_cast; rw [hts]; nlinarith) cfg.num_bars.toNat 0
    ⟨[], 0, List.replicate 12 0, 0⟩
  rw [hj]
  exact ⟨rfl, rfl⟩

/-! ## C7: rest probability one yields silence -/

/-- C7: for every valid configuration with `rest_probability = 1` and
every valid draw stream (raw draws in `[0,1)`), `generate` succeeds and
emits no notes: the note count is 0 and the single track's note list is
empty, for any number of bars. -/
theorem rest_probability_one_silent (cfg : SequenceConfig) (g : ℕ → ℚ)
    (hg : validRng g) (h1 : 0 < cfg.tempo) (h2 : 1 ≤ cfg.time_signature_num)
    (hp : cfg.rest_probability = 1) (l : List ℤ)
    (hsc : _get_scale_notes cfg = .ok l) :
    Except.map (fun r => (r.note_count, r.instruments.map Instrument.notes))
      (generate cfg g) = .ok (0, [[]]) :=
  (generate_all_rest cfg g hg h1 h2 (by rw [hp]) l hsc).1

/-- Witness for C7 at the all-defaults configuration with
`rest_probability = 1` and the all-zero draw stream. -/
theorem rest_probability_one_silent_witness :
    validRng gZero ∧ cfgRest1.rest_probability = 1 ∧
      Except.map (fun r => (r.note_count, r.instruments.map Instrument.notes))
        (generate cfgRest1 gZero) = .ok (0, [[]]) :=
  ⟨validRng_gZero, rfl,
    rest_probability_one_silent cfgRest1 gZero validRng_gZero (by decide) (by decide)
      rfl _ rfl⟩

/-! ## C2: the pinned example configuration -/

/-- C2 counterexample: the scale-note universe of the pinned example
configuration is `[60, 62, 64, 65, 67, 69, 71]`; contrary to the
claim, it does not contain the octave boundary note 72 (the octave
range `(4, 4)` enumerates octave 4 only and no interval reaches 12). -/
theorem scale_universe_no_72 :
    _get_scale_notes cfgC2 = .ok [60, 62, 64, 65, 67, 69, 71] ∧
    Except.map (fun l => l.contains 72) (_get_scale_notes cfgC2) = .ok false :=
  ⟨rfl, rfl⟩

/-- C2 (amended): for the pinned example configuration the scale-note
universe is exactly the MIDI pitch list `[60, 62, 64, 65, 67, 69, 71]`
(one octave of C major, without the octave boundary note 72), the bar
spans exactly `4 * (60/120) = 2` seconds, and every note emitted under
any draw stream carries velocity 80. -/
theorem c2_example_behaviour (g : ℕ → ℚ) :
    _get_scale_notes cfgC2 = .ok [60, 62, 64, 65, 67, 69, 71] ∧
      (cfgC2.time_signature_num : ℚ) * (60 / (cfgC2.tempo : ℚ)) = 2 ∧
      Except.map velAll80 (generate cfgC2 g) =
        Except.map (fun _ => true) (generate cfgC2 g) :=
  ⟨rfl, by norm_num [cfgC2], generate_vel80 cfgC2 g rfl⟩

/-! ## C1: behaviour on an empty scale-note universe -/

/-- C1 counterexample: the configuration with octave range `(9, 9)` has
an empty scale-note universe, yet with `rest_probability = 1` the
`generate` call does not fail with any error: it returns a successful,
silent result (note count 0, empty track).  Moreover the spec's cited
example `octave_range = (0, 0)` with C major does not even produce an
empty universe: pitches 21 and 23 survive the `[21, 108]` filter. -/
theorem empty_universe_silent_success :
    _get_scale_notes cfgEmptyRestful = .ok [] ∧
      Except.map (fun r => (r.note_count, r.instruments.map Instrument.notes))
        (generate cfgEmptyRestful gZero) = .ok (0, [[]]) ∧
      _get_scale_notes cfgOct00 = .ok [21, 23] := by
  refine ⟨rfl, ?_, rfl⟩
  exact (generate_all_rest cfgEmptyRestful gZero validRng_gZero (by decide) (by decide)
    (le_refl 1) [] rfl).1

/-- C1 (amended): an empty scale-note universe is not detected up
front: `generate` fails — with the `IndexError` that `random.choice`
raises on an empty sequence — only when a note slot is reached.  In
particular, whenever the universe is empty, no slot can rest
(`rest_probability ≤ 0`), there is at least one bar, and the bar is
longer than the 0.01-second epsilon, the first slot raises that index
error.  (With `rest_probability = 1` the generation instead returns a
silent result, see the counterexample.) -/
theorem empty_universe_index_error (cfg : SequenceConfig) (g : ℕ → ℚ)
    (hg : validRng g) (hempty : _get_scale_notes cfg = .ok [])
    (hp : cfg.rest_probability ≤ 0) (hb : 1 ≤ cfg.num_bars)
    (hbar : 1/100 < (cfg.time_signature_num : ℚ) * (60 / (cfg.tempo : ℚ))) :
    generate cfg g = .error .indexError := by
  unfold generate
  rw [hempty]
  dsimp only [Except.bind]
  obtain ⟨n, hn⟩ : ∃ n, cfg.num_bars.toNat = n + 1 := ⟨cfg.num_bars.toNat - 1, by omega⟩
  rw [hn]
  obtain ⟨m, hm⟩ : ∃ m, 4 * cfg.time_signature_num.toNat + 2 = m + 1 :=
    ⟨4 * cfg.time_signature_num.toNat + 1, by omega⟩
  rw [hm, runBars, fillBar]
  have hc : ((0 : ℕ) : ℚ) * ((cfg.time_signature_num : ℚ) * (60 / (cfg.tempo : ℚ))) <
      ((0 : ℕ) : ℚ) * ((cfg.time_signature_num : ℚ) * (60 / (cfg.tempo : ℚ))) +
        (cfg.time_signature_num : ℚ) * (60 / (cfg.tempo : ℚ)) - 1/100 := by
    push_cast
    linarith
  rw [if_pos hc]
  dsimp only
  rw [if_neg (not_lt.mpr (le_trans hp (hg 0).1))]
  rfl

/-- Witness for the amended C1: the empty-universe, never-resting
configuration raises the index error at the very first slot. -/
theorem empty_universe_index_error_witness :
    validRng gZero ∧ _get_scale_notes cfgEmptyNoRest = .ok [] ∧
      cfgEmptyNoRest.rest_probability ≤ 0 ∧ (1 : ℤ) ≤ cfgEmptyNoRest.num_bars ∧
      (1/100 : ℚ) < (cfgEmptyNoRest.time_signature_num : ℚ) *
        (60 / (cfgEmptyNoRest.tempo : ℚ)) ∧
      generate cfgEmptyNoRest gZero = .error .indexError :=
  ⟨validRng_gZero, rfl, le_refl 0, by decide, by norm_num [cfgEmptyNoRest],
    empty_universe_index_error cfgEmptyNoRest gZero validRng_gZero rfl (le_refl 0)
      (by decide) (by norm_num [cfgEmptyNoRest])⟩

/-! ## C6: per-note invariants -/

theorem fillBar_notes_ok (p : ℚ) (v : String) (vv : Bool) (g : ℕ → ℚ)
    (sn : List ℤ) (qd be : ℚ) (hg : validRng g) (hqd : 0 < qd)
    (hsn : ∀ x ∈ sn, 21 ≤ x ∧ x ≤ 108) :
    ∀ (fuel : ℕ) (t : ℚ) (s s1 : LoopSt),
      fillBar p v vv g sn qd be fuel t s = .ok s1 →
      (0 ≤ t ∨ be ≤ t + 1/100) →
      (∀ n ∈ s.notes, 0 ≤ n.pitch ∧ n.pitch ≤ 127 ∧ 0 ≤ n.start ∧
        n.start < n.end_ ∧ 1/25 ≤ n.end_ - n.start) →
      ∀ n ∈ s1.notes, 0 ≤ n.pitch ∧ n.pitch ≤ 127 ∧ 0 ≤ n.start ∧
        n.start < n.end_ ∧ 1/25 ≤ n.end_ - n.start := by
  intro fuel
  induction fuel with
  | zero => intro t s s1 h ht hs; simp [fillBar] at h
  | succ f ih =>
    intro t s s1 h ht hs
    rw [fillBar] at h
    by_cases hlt : t < be - 1/100
    · have ht0 : 0 ≤ t := by
        rcases ht with h0 | h0
        · exact h0
        · linarith
      rw [if_pos hlt] at h
      dsimp only at h
      by_cases hr : g s.i < p
      · rw [if_pos hr] at h
        have hd := _pick_duration_ge v (g (s.i + 1))
        have hdq : (0:ℚ) < _pick_duration v (g (s.i + 1)) * qd := by nlinarith
        refine ih _ _ _ h (Or.inl ?_) hs
        have hmin : (0:ℚ) ≤ min (_pick_duration v (g (s.i + 1)) * qd) (be - t) :=
          le_min hdq.le (by linarith)
        linarith
      · rw [if_neg hr] at h
        rcases hc : pyChoice sn (g (s.i + 1)) with _ | midi
        · rw [hc] at h; cases h
        · rw [hc] at h
          dsimp only at h
          have hmem : midi ∈ sn := by
            unfold pyChoice at hc
            obtain ⟨hlen, rfl⟩ := List.get?_eq_some.mp hc
            exact List.get_mem sn _ _
          obtain ⟨hp21, hp108⟩ := hsn midi hmem
          have hd := _pick_duration_ge v (g (s.i + 2))
          have hdq : (0:ℚ) < _pick_duration v (g (s.i + 2)) * qd := by nlinarith
          have hmin : (0:ℚ) ≤ min (_pick_duration v (g (s.i + 2)) * qd) (be - t) :=
            le_min hdq.le (by linarith)
          refine ih _ _ _ h (Or.inl (by linarith)) ?_
          intro n hn
          rcases List.mem_append.mp hn with hn | hn
          · exact hs n hn
          · simp only [List.mem_singleton] at hn
            subst hn
            have hjit : -(1/100) ≤ pyUniform (g (s.i + 3)) (-(1/100)) (1/100) := by
              unfold pyUniform
              have h0 := (hg (s.i + 3)).1
              nlinarith
            dsimp only
            set st := t + pyUniform (g (s.i + 3)) (-(1/100)) (1/100) with hstdef
            set e0 := st + min (_pick_duration v (g (s.i + 2)) * qd) (be - t) *
              pyUniform (g (s.i + 4)) (85/100) (98/100) with he0def
            have hstge : -(1/100) ≤ st := by
              rw [hstdef]
              linarith
            have h1 : st + 1/20 ≤ max (st + 1/20) e0 := le_max_left (st + 1/20) e0
            have hgap : max 0 st + 1/25 ≤ max (st + 1/20) e0 := by
              rcases le_or_lt st 0 with hq | hq
              · rw [max_eq_left hq]
                linarith
              · rw [max_eq_right hq.le]
                linarith
            refine ⟨by omega, by omega, le_max_left 0 st, by linarith, by linarith⟩
    · rw [if_neg hlt] at h
      cases h
      exact hs

theorem runBars_notes_ok (p : ℚ) (v : String) (vv : Bool) (g : ℕ → ℚ)
    (sn : List ℤ) (qd bd : ℚ) (fuel : ℕ) (hg : validRng g) (hqd : 0 < qd)
    (hsn : ∀ x ∈ sn, 21 ≤ x ∧ x ≤ 108) :
    ∀ (n bar : ℕ) (s s1 : LoopSt), runBars p v vv g sn qd bd fuel n bar s = .ok s1 →
      (∀ x ∈ s.notes, 0 ≤ x.pitch ∧ x.pitch ≤ 127 ∧ 0 ≤ x.start ∧
        x.start < x.end_ ∧ 1/25 ≤ x.end_ - x.start) →
      ∀ x ∈ s1.notes, 0 ≤ x.pitch ∧ x.pitch ≤ 127 ∧ 0 ≤ x.start ∧
        x.start < x.end_ ∧ 1/25 ≤ x.end_ - x.start := by
  intro n
  induction n with
  | zero => intro bar s s1 h hs; cases h; exact hs
  | succ n ih =>
    intro bar s s1 h hs
    rw [runBars] at h
    rcases hf : fillBar p v vv g sn qd ((bar : ℚ) * bd + bd) fuel ((bar : ℚ) * bd) s
        with e | s2
    · rw [hf] at h; cases h
    · rw [hf] at h
      refine ih _ _ _ h (fillBar_notes_ok p v vv g sn qd _ hg hqd hsn _ _ _ _ hf ?_ hs)
      rcases le_or_lt 0 bd with hbd | hbd
      · exact Or.inl (mul_nonneg (Nat.cast_nonneg bar) hbd)
      · exact Or.inr (by linarith)

/-- C6 (amended): for every configuration with positive tempo and every
valid draw stream, each emitted note has a pitch within `[0, 127]`, a
nonnegative start, an end strictly after its start, and a gap of at
least `0.04` seconds.  The spec's claimed `0.05` minimum does not hold
in general: the 0.05 floor is anchored to the unclamped jittered start,
and when that jitter pushes the start below zero the clamp to 0 shrinks
the audible gap to as little as `0.05 - 0.01 = 0.04` (see the
counterexample theorem). -/
theorem generate_notes_within (cfg : SequenceConfig) (g : ℕ → ℚ)
    (hg : validRng g) (h1 : 0 < cfg.tempo) :
    Except.map allNotesWithin (generate cfg g) =
      Except.map (fun _ => true) (generate cfg g) := by
  unfold generate
  rcases hsc : _get_scale_notes cfg with e | sn
  · rfl
  · dsimp only [Except.bind]
    have hqd : (0:ℚ) < 60 / (cfg.tempo : ℚ) := div_pos (by norm_num) (by exact_mod_cast h1)
    rcases hr : runBars cfg.rest_probability cfg.note_duration_variety
        cfg.velocity_variation g sn (60 / (cfg.tempo : ℚ))
        ((cfg.time_signature_num : ℚ) * (60 / (cfg.tempo : ℚ)))
        (4 * cfg.time_signature_num.toNat + 2) cfg.num_bars.toNat 0
        ⟨[], 0, List.replicate 12 0, 0⟩ with e | s
    · rfl
    · have hnotes := runBars_notes_ok cfg.rest_probability cfg.note_duration_variety
        cfg.velocity_variation g sn (60 / (cfg.tempo : ℚ))
        ((cfg.time_signature_num : ℚ) * (60 / (cfg.tempo : ℚ)))
        (4 * cfg.time_signature_num.toNat + 2) hg hqd
        (scale_notes_range cfg sn hsc) cfg.num_bars.toNat 0 _ _ hr (by simp)
      simp only [Except.map]
      congr 1
      simp only [allNotesWithin, List.all_cons, List.all_nil, Bool.and_true]
      rw [List.all_eq_true]
      intro n hn
      simp only [noteWithinSpec, Bool.and_eq_true, decide_eq_true_eq]
      have hP := hnotes n hn
      tauto

/-- Witness for the amended C6 at the all-defaults configuration and
the all-zero draw stream. -/
theorem generate_notes_within_witness :
    validRng gZero ∧ 0 < defaultConfig.tempo ∧
      Except.map allNotesWithin (generate defaultConfig gZero) =
        Except.map (fun _ => true) (generate defaultConfig gZero) :=
  ⟨validRng_gZero, by decide,
    generate_notes_within defaultConfig gZero validRng_gZero (by decide)⟩

/-- C6 counterexample: under the valid configuration `cfgC6`
(positive tempo 300) and a valid draw stream, `generate` succeeds and
the single emitted note starts at `0` and ends at `0.04 = 1/25`: its
gap is strictly below the claimed `0.05` minimum, because the negative
jitter of the first slot was clamped away from the start but not from
the 0.05-anchor. -/
theorem fillBar_c6_step1 :
    fillBar (1/2) "high" false gC6 [60, 62, 64, 65, 67, 69, 71] (1/5) (4/5) (17 + 1) 0
        ⟨[], 0, List.replicate 12 0, 0⟩ =
      fillBar (1/2) "high" false gC6 [60, 62, 64, 65, 67, 69, 71] (1/5) (4/5) 17 (1/20)
        ⟨[⟨80, 60, 0, 1/25⟩], 1, histInc (List.replicate 12 0) 0, 5⟩ := by
  rw [fillBar]
  rw [if_pos (by norm_num)]
  dsimp only
  rw [if_neg (by rw [show gC6 0 = (1/2 : ℚ) from rfl]; norm_num)]
  rw [show gC6 (0 + 1) = 0 from rfl]
  rw [show pyChoice [60, 62, 64, 65, 67, 69, 71] 0 = some 60 from by
    unfold pyChoice
    norm_num [List.get?]]
  dsimp only
  rw [show gC6 (0 + 2) = 1/2 from rfl]
  rw [show _pick_duration "high" (1/2) = 1/4 from by
    unfold _pick_duration
    dsimp only
    rw [show dictGetD DURATION_PROFILES "high" mediumProfile =
      [("quarter", 1/5), ("half", 1/10), ("eighth", 1/5),
       ("sixteenth", 1/5), ("dotted_quarter", 3/20),
       ("dotted_eighth", 1/10), ("whole", 1/20)] from rfl]
    rw [show pyWeightedIdx
        ([("quarter", (1/5:ℚ)), ("half", 1/10), ("eighth", 1/5),
          ("sixteenth", 1/5), ("dotted_quarter", 3/20),
          ("dotted_eighth", 1/10), ("whole", 1/20)].map Prod.snd) (1/2) = 3 from by
      unfold pyWeightedIdx cumWeights
      norm_num [countLe, List.scanl]]
    rfl]
  rw [show gC6 (0 + 3) = 0 from rfl, show gC6 (0 + 4) = 0 from rfl]
  rw [show pyUniform 0 (-(1/100)) (1/100) = -(1/100) from by unfold pyUniform; ring]
  rw [show pyUniform 0 (85/100) (98/100) = 85/100 from by unfold pyUniform; ring]
  norm_num [show _velocity false (gC6 (0 + 5)) = 80 from rfl, min_def, max_def]

theorem fillBar_c6_step2 :
    fillBar (1/2) "high" false gC6 [60, 62, 64, 65, 67, 69, 71] (1/5) (4/5) 17 (1/20)
        ⟨[⟨80, 60, 0, 1/25⟩], 1, histInc (List.replicate 12 0) 0, 5⟩ =
      fillBar (1/2) "high" false gC6 [60, 62, 64, 65, 67, 69, 71] (1/5) (4/5) 16 (4/5)
        ⟨[⟨80, 60, 0, 1/25⟩], 1, histInc (List.replicate 12 0) 0, 7⟩ := by
  rw [show (17 : ℕ) = 16 + 1 from rfl, fillBar]
  rw [if_pos (by norm_num)]
  dsimp only
  rw [if_pos (by rw [show gC6 5 = (0 : ℚ) from rfl]; norm_num)]
  rw [show gC6 (5 + 1) = 24/25 from rfl]
  rw [show _pick_duration "high" (24/25) = 4 from by
    unfold _pick_duration
    dsimp only
    rw [show dictGetD DURATION_PROFILES "high" mediumProfile =
      [("quarter", 1/5), ("half", 1/10), ("eighth", 1/5),
       ("sixteenth", 1/5), ("dotted_quarter", 3/20),
       ("dotted_eighth", 1/10), ("whole", 1/20)] from rfl]
    rw [show pyWeightedIdx
        ([("quarter", (1/5:ℚ)), ("half", 1/10), ("eighth", 1/5),
          ("sixteenth", 1/5), ("dotted_quarter", 3/20),
          ("dotted_eighth", 1/10), ("whole", 1/20)].map Prod.snd) (24/25) = 6 from by
      unfold pyWeightedIdx cumWeights
      norm_num [countLe, List.scanl]]
    rfl]
  norm_num [min_def]

theorem fillBar_c6_step3 :
    fillBar (1/2) "high" false gC6 [60, 62, 64, 65, 67, 69, 71] (1/5) (4/5) 16 (4/5)
        ⟨[⟨80, 60, 0, 1/25⟩], 1, histInc (List.replicate 12 0) 0, 7⟩ =
      .ok ⟨[⟨80, 60, 0, 1/25⟩], 1, histInc (List.replicate 12 0) 0, 7⟩ := by
  rw [show (16 : ℕ) = 15 + 1 from rfl, fillBar]
  rw [if_neg (by norm_num)]

theorem runBars_c6_eval :
    runBars (1/2) "high" false gC6 [60, 62, 64, 65, 67, 69, 71] (1/5) (4/5) 18 1 0
        ⟨[], 0, List.replicate 12 0, 0⟩ =
      .ok ⟨[⟨80, 60, 0, 1/25⟩], 1, histInc (List.replicate 12 0) 0, 7⟩ := by
  rw [show (1 : ℕ) = 0 + 1 from rfl, runBars]
  norm_num
  rw [show (18 : ℕ) = 17 + 1 from rfl, fillBar_c6_step1, fillBar_c6_step2,
    fillBar_c6_step3]
  rfl

/-- C6 counterexample: under the valid configuration `cfgC6`
(positive tempo 300) and a valid draw stream, `generate` succeeds and
the single emitted note starts at `0` and ends at `0.04 = 1/25`: its
gap is strictly below the claimed `0.05` minimum, because the negative
jitter of the first slot was clamped away from the start but not from
the 0.05-anchor. -/
theorem min_gap_violation :
    validRng gC6 ∧ 0 < cfgC6.tempo ∧
      Except.map (fun r => r.instruments.map (fun ins =>
          ins.notes.map (fun n => (n.start, n.end_)))) (generate cfgC6 gC6) =
        .ok [[((0 : ℚ), (1/25 : ℚ))]] ∧
      (1/25 : ℚ) - 0 < 1/20 := by
  refine ⟨?_, by decide, ?_, by norm_num⟩
  · intro i
    unfold gC6
    split_ifs <;> norm_num
  · unfold generate
    rw [show _get_scale_notes cfgC6 = .ok [60, 62, 64, 65, 67, 69, 71] from rfl]
    dsimp only [Except.bind]
    rw [show cfgC6.num_bars.toNat = 0 + 1 from rfl,
      show 4 * cfgC6.time_signature_num.toNat + 2 = 17 + 1 from rfl]
    norm_num [cfgC6]
    rw [runBars_c6_eval]
    rfl

/-! ## C4 counterexample -/

/-- C4 counterexample: for the valid configuration with tempo 90 and
one 4/4 bar, the reported `duration_seconds` is the rounded `2.67`,
which differs from the exact product `1 * 4 * (60/90) = 8/3`; the
claimed exact equality is false. -/
theorem duration_rounded_not_exact :
    Except.map (fun r => decide (r.duration_seconds =
        (cfgC4.num_bars : ℚ) * (cfgC4.time_signature_num : ℚ) * (60 / (cfgC4.tempo : ℚ))))
      (generate cfgC4 gZero) = .ok false := by
  have h := (generate_all_rest cfgC4 gZero validRng_gZero (by decide) (by decide)
    (le_refl 1) _ rfl).2
  rcases hgen : generate cfgC4 gZero with e | res
  · rw [hgen] at h
    cases h
  · rw [hgen] at h
    simp only [Except.map, Except.ok.injEq] at h ⊢
    rw [h]
    rw [decide_eq_false_iff_not]
    have hval : py_round2 ((cfgC4.num_bars : ℚ) * (cfgC4.time_signature_num : ℚ) *
        (60 / (cfgC4.tempo : ℚ))) = 267/100 := by
      have harg : (cfgC4.num_bars : ℚ) * (cfgC4.time_signature_num : ℚ) *
          (60 / (cfgC4.tempo : ℚ)) = 8/3 := by norm_num [cfgC4]
      rw [harg]
      unfold py_round2 pyRoundHalfEven
      norm_num
    rw [hval]
    norm_num [cfgC4]

end MusicPP
